/-
Verification of the strong4vm repository: the dimacs2graphs edge extractor,
its parallel driver, output formatting, CLI exit behaviour, and API state
handling.  Shallow embedding of src/dimacs2graphs/api/Dimacs2GraphsAPI.cc
and src/cli/strong4vm.cc.

The SAT backbone engine (BackboneSolverAPI) is an external collaborator of
the code under verification: the extractor only consumes the literal
vectors it returns.  It is therefore modelled as an oracle function
`bba : Nat → List Int` (the result of compute_backbone_with_assumptions
with the single assumption v) together with `bb : List Int` (the result of
compute_backbone), exactly as the extractor sees them.
-/
import Mathlib

namespace Strong4VM

/-! ### DIMACS name comments and auxiliary variables

A parsed name comment `c <var> <w1> <w2> ...` is modelled as the variable
number together with the list of whitespace-separated name words
(read_feature_names / the output pass both tokenise with `ss >> word`). -/

/-- A DIMACS name comment: variable number and the list of name words. -/
abbrev Comment := Nat × List String

/-- The full name built from the words, separated by single spaces
(read_feature_names: `if (full_name.tellp() > 0) full_name << " "; full_name << word`). -/
def joinedName : List String → String
  | [] => ""
  | w :: ws => ws.foldl (fun acc x => acc ++ " " ++ x) w

/-- `name.size() >= 4 && name.substr(0, 4) == "aux_"` from read_feature_names. -/
def isAuxName (name : String) : Bool :=
  name.length ≥ 4 && name.take 4 == "aux_"

/-- `aux_vars.resize(var_number + 1, false); aux_vars[var_number] = true;`
with the growth step of read_feature_names. -/
def setAux (l : List Bool) (v : Nat) : List Bool :=
  (if l.length ≤ v then l ++ List.replicate (v + 1 - l.length) false else l).set v true

/-- The aux flag vector produced by read_feature_names from the parsed
comments, starting from the caller-supplied vector of size n+1. -/
def computeAuxVars (n : Nat) (comments : List Comment) : List Bool :=
  comments.foldl
    (fun l c =>
      if !c.2.isEmpty && isAuxName (joinedName c.2) then setAux l c.1 else l)
    (List.replicate (n + 1) false)

/-- `v < aux_vars.size() && aux_vars[v]` (ThreadWorker::is_aux and the
is_aux lambda of generate_graphs_impl). -/
def isAuxIn (l : List Bool) (v : Nat) : Bool :=
  l.getD v false

/-- A variable is auxiliary-named in the input: some name comment for it has
words and the joined name starts with "aux_". -/
def isAuxNamed (comments : List Comment) (v : Nat) : Bool :=
  comments.any (fun c => c.1 == v && !c.2.isEmpty && isAuxName (joinedName c.2))

/-! ### Backbone vectors as indexed arrays

`vector<int> line(num_variables + 1, 0); for (int lit : vec) line[abs(lit)] = lit;`
— last writer wins; index 0 outside any literal's magnitude stays 0. -/

/-- The indexed-array lookup for a literal vector: the last literal of the
list whose variable (absolute value) is `i`, or 0 if none. -/
def lineAt (lits : List Int) (i : Nat) : Int :=
  lits.foldl (fun acc l => if l.natAbs = i then l else acc) 0

/-! ### The extraction environment

Everything generate_graphs_impl has in hand when it processes variables:
the variable count, the parsed name comments, the auxiliary-filter flag,
and the backbone oracle. -/

structure ExtractEnv where
  n : Nat
  comments : List Comment
  filterAux : Bool
  /-- Result vector of `bone_api.compute_backbone()`. -/
  bb : List Int
  /-- Result vector of `bone_api.compute_backbone_with_assumptions({v})`. -/
  bba : Nat → List Int

/-- The aux flag vector in scope during extraction: filled by
read_feature_names only when filtering is enabled, otherwise the all-false
vector it was initialised to. -/
def auxVec (e : ExtractEnv) : List Bool :=
  if e.filterAux then computeAuxVars e.n e.comments
  else List.replicate (e.n + 1) false

/-- The is_aux check used by the extractor and the output pass. -/
def isAux (e : ExtractEnv) (v : Nat) : Bool :=
  isAuxIn (auxVec e) v

/-- `bb[i]` of the indexed global-backbone array. -/
def bbAt (e : ExtractEnv) (i : Nat) : Int :=
  lineAt e.bb i

/-- The list of variables generate_graphs_impl processes: all of 1..n, or
the non-auxiliary ones when filtering is enabled.  Built before the global
backbone is computed; backbone variables are not removed. -/
def varsToProcess (e : ExtractEnv) : List Nat :=
  if e.filterAux then (List.range' 1 e.n).filter (fun v => !isAux e v)
  else List.range' 1 e.n

/-- Requires edges emitted while processing v:
`(i != v) && (line[i] == i) && (bb[i] == 0) && !is_aux(i)` for i in 1..n. -/
def requiresFor (e : ExtractEnv) (v : Nat) : List (Nat × Nat) :=
  ((List.range' 1 e.n).filter
    (fun i =>
      i != v && lineAt (e.bba v) i == (i : Int) && bbAt e i == 0 && !isAux e i)).map
    (fun i => (v, i))

/-- Excludes edges emitted while processing v:
`(line[i] == -i) && (bb[i] != -i) && (bb[v] != -v) && !is_aux(i)` for i in v..n. -/
def excludesFor (e : ExtractEnv) (v : Nat) : List (Nat × Nat) :=
  ((List.range' v (e.n + 1 - v)).filter
    (fun i =>
      lineAt (e.bba v) i == -(i : Int) && bbAt e i != -(i : Int) &&
        bbAt e v != -(v : Int) && !isAux e i)).map
    (fun i => (v, i))

/-- The requires list of the single-threaded path (effective_threads == 1):
the loop over vars_to_process appending per-variable edges in order. -/
def singleRequires (e : ExtractEnv) : List (Nat × Nat) :=
  (varsToProcess e).flatMap (requiresFor e)

/-- The excludes list of the single-threaded path. -/
def singleExcludes (e : ExtractEnv) : List (Nat × Nat) :=
  (varsToProcess e).flatMap (excludesFor e)

/-! ### Static work partitioning (multi-threaded path)

`vars_per_thread = total / eff; remainder = total % eff;` then for each
thread t an index range of `vars_per_thread + (t < remainder ? 1 : 0)`
elements, consecutively from current_idx = 0. -/

/-- The loop of generate_graphs_impl that assigns each worker its
contiguous index range: current start index `cur`, thread id `t`, and the
number of workers still to create. -/
def rangesGo (vpt rem : Nat) : Nat → Nat → Nat → List (Nat × Nat)
  | _, _, 0 => []
  | cur, t, k + 1 =>
    let count := vpt + (if t < rem then 1 else 0)
    (cur, count) :: rangesGo vpt rem (cur + count) (t + 1) k

/-- The (start index, element count) ranges handed to the eff workers. -/
def makeRanges (total eff : Nat) : List (Nat × Nat) :=
  rangesGo (total / eff) (total % eff) 0 0 eff

/-- `effective_threads = min(num_of_threads, total_to_process)`. -/
def effThreads (e : ExtractEnv) (T : Nat) : Nat :=
  min T (varsToProcess e).length

/-- The index ranges the driver builds for T requested workers. -/
def theRanges (e : ExtractEnv) (T : Nat) : List (Nat × Nat) :=
  makeRanges (varsToProcess e).length (effThreads e T)

/-- One worker's requires buffer: `for idx in [start_idx, end_idx]`
processing `vars_to_process[idx]`. -/
def workerRequires (e : ExtractEnv) (p : Nat × Nat) : List (Nat × Nat) :=
  (List.range' p.1 p.2).flatMap (fun idx => requiresFor e ((varsToProcess e).getD idx 0))

/-- One worker's excludes buffer. -/
def workerExcludes (e : ExtractEnv) (p : Nat × Nat) : List (Nat × Nat) :=
  (List.range' p.1 p.2).flatMap (fun idx => excludesFor e ((varsToProcess e).getD idx 0))

/-- The merged requires list of the multi-threaded path: thread-local
buffers concatenated in thread order after the join. -/
def multiRequires (e : ExtractEnv) (T : Nat) : List (Nat × Nat) :=
  (theRanges e T).flatMap (workerRequires e)

/-- The merged excludes list of the multi-threaded path. -/
def multiExcludes (e : ExtractEnv) (T : Nat) : List (Nat × Nat) :=
  (theRanges e T).flatMap (workerExcludes e)

/-! ### Output lines

The output pass walks the comment lines again.  For a comment
`c <var> <w1> <w2> ...` of a non-auxiliary variable it writes

* to feat_stream (the vertex table of both .net files):
  the variable number, then ` "<w>"` for every word;
* to core_stream (when `bb[var] > 0`) and dead_stream (when `bb[var] < 0`):
  `<var> "<w>"` for every word, the variable number repeated per word. -/

/-- The vertex line of the .net files for one comment:
`feat_stream << var_number;` then `feat_stream << " \"" << word << "\"";`
per word. -/
def featLineStr (v : Nat) (ws : List String) : String :=
  toString v ++ String.join (ws.map (fun w => " \"" ++ w ++ "\""))

/-- The core/dead line for one comment:
`core_stream << var_number << " \"" << word << "\"";` per word. -/
def perWordLineStr (v : Nat) (ws : List String) : String :=
  String.join (ws.map (fun w => toString v ++ " \"" ++ w ++ "\""))

/-- Modelled from the spec: the `index "name"` line format §4.5 prescribes
for the core and dead lists, with the name the full tail of the comment. -/
def specPairLineStr (v : Nat) (ws : List String) : String :=
  toString v ++ " \"" ++ joinedName ws ++ "\""

/-- Variables whose number reaches feat_stream: every parsed comment whose
variable is not skipped by the is_aux check (the number is written even for
comments without name words). -/
def featVars (e : ExtractEnv) : List Nat :=
  (e.comments.filter (fun c => !isAux e c.1)).map (fun c => c.1)

/-- Variables written to the core list: non-aux comments with words whose
variable has a positive global-backbone entry. -/
def coreVars (e : ExtractEnv) : List Nat :=
  (e.comments.filter
    (fun c => !isAux e c.1 && !c.2.isEmpty && decide (0 < bbAt e c.1))).map
    (fun c => c.1)

/-- Variables written to the dead list. -/
def deadVars (e : ExtractEnv) : List Nat :=
  (e.comments.filter
    (fun c => !isAux e c.1 && !c.2.isEmpty && decide (bbAt e c.1 < 0))).map
    (fun c => c.1)

/-- Both endpoints of every edge of a list. -/
def edgeVars (l : List (Nat × Nat)) : List Nat :=
  l.flatMap (fun p => [p.1, p.2])

/-- Every variable number some output file mentions: the vertex tables of
the two .net files, the core and dead lists, and the endpoints of the
emitted requires and excludes edges. -/
def allMentioned (e : ExtractEnv) : List Nat :=
  featVars e ++ coreVars e ++ deadVars e ++
    edgeVars (singleRequires e) ++ edgeVars (singleExcludes e)

/-! ### Path handling (Impl helpers and the CLI) -/

/-- `suf` is a suffix of `s` — the model of C++
`s.size() >= suf.size() && s.substr(s.size() - suf.size()) == suf`. -/
def strEndsWith (s suf : String) : Bool :=
  suf.data.isSuffixOf s.data

/-- generate_graphs_impl: `if (size < 7 || substr(size-7) != ".dimacs") dimacs_path += ".dimacs";`. -/
def withDimacsExt (s : String) : String :=
  if strEndsWith s ".dimacs" then s else s ++ ".dimacs"

/-- Impl::normalize_path: drop one trailing slash or backslash. -/
def normalizePath (path : String) : String :=
  match path.data.getLast? with
  | none => path
  | some c => if c = '/' ∨ c = '\\' then ⟨path.data.dropLast⟩ else path

/-- The part of a path after its last slash or backslash. -/
def fileNameOf (s : String) : String :=
  ⟨(s.data.reverse.takeWhile (fun c => c ≠ '/' ∧ c ≠ '\\')).reverse⟩

/-- The part of a path before its last slash, or "." if there is none
(Impl::get_directory). -/
def dirOf (s : String) : String :=
  if s.data.any (fun c => c = '/' ∨ c = '\\') then
    ⟨(s.data.reverse.dropWhile (fun c => c ≠ '/' ∧ c ≠ '\\')).reverse.dropLast⟩
  else "."

/-- Impl::get_basename: strip the directory, then a ".dimacs" extension. -/
def getBasenameD (filepath : String) : String :=
  let filename := fileNameOf filepath
  if strEndsWith filename ".dimacs" then
    ⟨filename.data.take (filename.data.length - 7)⟩
  else filename

/-- The extension of a filename in the std::filesystem::path sense: from
the last dot on, except for ".", ".." and a lone leading dot. -/
def extOfFileName (fn : List Char) : List Char :=
  if fn = ['.'] ∨ fn = ['.', '.'] then []
  else
    let revExt := fn.reverse.takeWhile (fun c => c ≠ '.')
    if revExt.length + 1 < fn.length ∧ revExt.length < fn.length then
      '.' :: revExt.reverse
    else []

/-- File types the CLI distinguishes. -/
inductive FileType where
  | UVL | DIMACS | UNKNOWN
deriving DecidableEq, Repr

/-- strong4vm.cc detect_file_type: lowercase the extension and compare with
".uvl", ".dimacs" and ".cnf". -/
def detectFileType (filename : String) : FileType :=
  let ext : List Char := (extOfFileName (fileNameOf filename).data).map Char.toLower
  if ext = ".uvl".data then FileType.UVL
  else if ext = ".dimacs".data ∨ ext = ".cnf".data then FileType.DIMACS
  else FileType.UNKNOWN

/-! ### The Dimacs2GraphsAPI state machine

Impl holds num_variables, num_clauses, global_backbone, error_message and
filter_auxiliary; the getters return these fields.  generate_graphs_impl
is modelled as a function of the prior state and a world of oracles for
the file system and the solver layer. -/

/-- The fields of Dimacs2GraphsAPI::Impl visible through the getters. -/
structure DGState where
  num_variables : Nat
  num_clauses : Nat
  global_backbone : List Int
  error_message : String
  filter_auxiliary : Bool
deriving DecidableEq, Repr

/-- Oracles for everything generate_graphs_impl observes outside its own
state: file loads, the solver layer, hardware concurrency, worker
outcomes, and output-file creation. -/
structure GGWorld where
  /-- `bone_api.read_dimacs(path)` succeeds. -/
  loadOk : String → Bool
  /-- `bone_api.create_backbone_detector(detector)` succeeds. -/
  detectorOk : Bool
  /-- `bone_api.get_max_variable()`. -/
  maxVar : Nat
  /-- read_clause_count: the parsed clause count, or the error message it
  stores. -/
  clauseCount : Except String Nat
  /-- read_feature_names can open the file. -/
  featuresOk : Bool
  /-- The name comments parsed from the file. -/
  comments : List Comment
  /-- `compute_backbone()`. -/
  bb : List Int
  /-- `compute_backbone_with_assumptions({v})` (the solver layer is
  deterministic per §4.1, so every per-thread instance loaded with the
  same file realises the same function). -/
  bba : Nat → List Int
  /-- `thread::hardware_concurrency()`. -/
  hw : Nat
  /-- `apis[t]->read_dimacs(dimacs_path)` succeeds for thread t. -/
  threadLoadOk : Nat → Bool
  /-- `apis[t]->create_backbone_detector(detector)` succeeds for thread t. -/
  threadDetectorOk : Nat → Bool
  /-- The error captured by worker t, if any. -/
  workerErr : Nat → Option String
  /-- The output directory already exists. -/
  dirExists : String → Bool
  /-- `filesystem::create_directories` succeeds. -/
  mkdirOk : Bool
  /-- An ofstream on the given path opens. -/
  fileOpenOk : String → Bool

/-- The extraction environment a run sees. -/
def envOf (w : GGWorld) (filterAux : Bool) : ExtractEnv :=
  { n := w.maxVar, comments := w.comments, filterAux := filterAux,
    bb := w.bb, bba := w.bba }

/-- The first failure among the sequential per-thread solver
initialisations (multi-threaded mode pre-creates all instances in order,
checking read_dimacs then create_backbone_detector for each). -/
def firstInitFail (w : GGWorld) (eff : Nat) : Option String :=
  (List.range eff).findSome? (fun t =>
    if !w.threadLoadOk t then some ("Failed to load DIMACS for thread " ++ toString t)
    else if !w.threadDetectorOk t then
      some ("Failed to create detector for thread " ++ toString t)
    else none)

/-- The first worker error in thread order (the driver checks
`workers[t].success` in order after joining all threads). -/
def firstWorkerFail (w : GGWorld) (eff : Nat) : Option String :=
  (List.range eff).findSome? (fun t => w.workerErr t)

/-- The load-failure message generate_graphs_impl leaves in error_message
(the second of the two messages it stores). -/
def loadFailMsg (p : String) : String :=
  "Please check that " ++ p ++ " conforms to the DIMACS CNF format and is accessible."

/-- The sequence of output files opened, in write order. -/
def outputPaths (output_base : String) : List String :=
  [output_base ++ "__core.txt", output_base ++ "__dead.txt",
   output_base ++ "__requires.net", output_base ++ "__excludes.net"]

/-- The first output file that fails to open, if any. -/
def firstOutputFail (w : GGWorld) (output_base : String) : Option String :=
  (outputPaths output_base).findSome? (fun p =>
    if !w.fileOpenOk p then some ("Could not create output file: " ++ p) else none)

/-- generate_graphs_impl as a state transformer: returns the bool result
and the post-call Impl state.  Mirrors the control flow of
Dimacs2GraphsAPI.cc lines 448-815: reset, path construction, load,
detector creation, statistics, feature names, global backbone, thread
validation, processing, output. -/
def genGraphs (w : GGWorld) (dimacs_file output_folder : String)
    (detector : String) (T : Int) (s : DGState) : Bool × DGState :=
  -- Reset state
  let st : DGState :=
    { num_variables := 0, num_clauses := 0, global_backbone := [],
      error_message := "", filter_auxiliary := s.filter_auxiliary }
  -- Construct DIMACS file path
  let dimacs_path := withDimacsExt dimacs_file
  -- Determine output location
  let output_dir := if output_folder = "" then dirOf dimacs_path
                    else normalizePath output_folder
  let output_base := output_dir ++ "/" ++ getBasenameD dimacs_file
  -- Load DIMACS file
  if !w.loadOk dimacs_path then
    (false, { st with error_message := loadFailMsg dimacs_path })
  -- Create backbone detector
  else if !w.detectorOk then
    (false, { st with error_message := "Failed to create backbone detector: " ++ detector })
  else
    let st := { st with num_variables := w.maxVar }
    -- Read clause count from file
    match w.clauseCount with
    | Except.error msg => (false, { st with error_message := msg })
    | Except.ok nc =>
      let st := { st with num_clauses := nc }
      -- Read feature names early (when filtering is enabled)
      if st.filter_auxiliary ∧ !w.featuresOk then
        (false, { st with error_message := "Could not open file: " ++ dimacs_path })
      else
        let e := envOf w st.filter_auxiliary
        -- Compute global backbone
        let st := { st with global_backbone := w.bb }
        -- Validate thread count
        let max_threads : Nat := if w.hw = 0 then 4 else w.hw
        if T < 1 then
          (false, { st with error_message := "num_of_threads must be at least 1" })
        else if (max_threads : Int) < T then
          let msg := "Requested " ++ toString T ++ " threads but only " ++
            toString max_threads ++ " cores available. Reduce thread count."
          (false, { st with error_message := msg })
        else
          let eff := effThreads e T.toNat
          let afterEdges : Except String (List (Nat × Nat) × List (Nat × Nat)) :=
            if eff = 1 then
              Except.ok (singleRequires e, singleExcludes e)
            else
              match firstInitFail w eff with
              | some msg => Except.error msg
              | none =>
                match firstWorkerFail w eff with
                | some msg => Except.error msg
                | none => Except.ok (multiRequires e T.toNat, multiExcludes e T.toNat)
          match afterEdges with
          | Except.error msg => (false, { st with error_message := msg })
          | Except.ok _ =>
            -- Create output directory if needed, then write the four files
            if !(output_dir = "") ∧ !w.dirExists output_dir ∧ !w.mkdirOk then
              (false, { st with error_message :=
                "Could not create output directory: " ++ output_dir })
            else
              match firstOutputFail w output_base with
              | some msg => (false, { st with error_message := msg })
              | none => (true, st)

/-! ### The strong4vm CLI (src/cli/strong4vm.cc) -/

/-- The outcome of the argument-parsing loop of main. -/
inductive ParseOut where
  /-- `-h`/`--help`: print usage, exit 0. -/
  | help
  /-- An early `return 1` inside the loop (bad thread count, unknown option). -/
  | err
  /-- Loop completed: input file, output dir, threads, keep, tseitin. -/
  | ok (input output_dir : String) (threads : Int) (keep tseitin : Bool)
deriving DecidableEq, Repr

/-- The model of `atoi` for the `-t` value; faithful for well-formed
decimal arguments. -/
def atoiModel (s : String) : Int :=
  (s.toInt?).getD 0

/-- The argument loop of main (strong4vm.cc lines 119-144), one argument
at a time with a lookahead for `-t` and `-o` values. -/
def parseLoop : List String → String → String → Int → Bool → Bool → ParseOut
  | [], inp, od, t, k, e => ParseOut.ok inp od t k e
  | a :: rest, inp, od, t, k, e =>
    if a = "-h" ∨ a = "--help" then ParseOut.help
    else if a = "-k" ∨ a = "--keep-dimacs" then parseLoop rest inp od t true e
    else if a = "-e" ∨ a = "--enable-tseitin" then parseLoop rest inp od t k true
    else if (a = "-t" ∨ a = "--threads") ∧ rest ≠ [] then
      match rest with
      | [] => ParseOut.err
      | nstr :: rest' =>
        let t' := atoiModel nstr
        if t' < 1 then ParseOut.err else parseLoop rest' inp od t' k e
    else if (a = "-o" ∨ a = "--output") ∧ rest ≠ [] then
      match rest with
      | [] => ParseOut.err
      | d :: rest' => parseLoop rest' inp d t k e
    else if a.data.head? ≠ some '-' then parseLoop rest a od t k e
    else ParseOut.err

/-- What the CLI observes outside its own logic: the file system plus one
generate_graphs world. -/
structure CLIWorld where
  fileExists : String → Bool
  mkdirOk : Bool
  /-- UVL-to-DIMACS conversion succeeds. -/
  uvlOk : Bool
  /-- The world the Dimacs2GraphsAPI call runs in. -/
  gg : GGWorld

/-- The tail of main after the argument loop (strong4vm.cc lines 146-286):
input checks, file-type detection, output-directory creation, optional UVL
conversion, then generate_graphs (always with detector "one" and
filter_auxiliary set exactly when Tseitin mode is on).  Every failure path
returns 1; success returns 0. -/
def mainAfterParse (w : CLIWorld) : ParseOut → Nat
  | ParseOut.help => 0
  | ParseOut.err => 1
  | ParseOut.ok input_file output_dir num_threads _keep use_tseitin =>
    if input_file = "" then 1
    else if !w.fileExists input_file then 1
    else
      let file_type := detectFileType input_file
      if file_type = FileType.UNKNOWN then 1
      else
        let out_dir := if output_dir = "" then dirOf input_file else output_dir
        if !w.fileExists out_dir ∧ !w.mkdirOk then 1
        else
          let dimacs_file :=
            if file_type = FileType.UVL then
              out_dir ++ "/" ++ fileNameOf input_file ++ ".dimacs"
            else input_file
          if file_type = FileType.UVL ∧ !w.uvlOk then 1
          else
            let s0 : DGState :=
              { num_variables := 0, num_clauses := 0, global_backbone := [],
                error_message := "", filter_auxiliary := use_tseitin }
            if !(genGraphs w.gg dimacs_file out_dir "one" num_threads s0).1 then 1
            else 0

/-- main of strong4vm.cc as an exit-code function (lines 102-286). -/
def mainExit (w : CLIWorld) (args : List String) : Nat :=
  if args = [] then 1
  else mainAfterParse w (parseLoop args "" "" 1 false false)

/-! ### Concrete instances used by witnesses and counterexamples -/

/-- One variable named "aux_a", no filtering (the default: the CLI enables
filtering only with `-e`), empty backbone. -/
def envAuxNoFilter : ExtractEnv :=
  { n := 1, comments := [(1, ["aux_a"])], filterAux := false, bb := [],
    bba := fun _ => [] }

/-- Two variables, variable 1 core (positive global backbone). -/
def envCoreVar : ExtractEnv :=
  { n := 1, comments := [], filterAux := false, bb := [1],
    bba := fun _ => [] }

/-- Two plain variables with a mutual exclusion: the backbone under v=1
contains -2 and vice versa. -/
def envMutex : ExtractEnv :=
  { n := 2, comments := [], filterAux := false, bb := [],
    bba := fun v => if v = 1 then [1, -2] else [2, -1] }

/-- Two variables where assuming 1 forces 2. -/
def envImplies : ExtractEnv :=
  { n := 2, comments := [], filterAux := false, bb := [],
    bba := fun v => if v = 1 then [1, 2] else [2] }

/-- An aux-filtering environment with an auxiliary variable 3. -/
def envAuxFilter : ExtractEnv :=
  { n := 3, comments := [(1, ["a"]), (2, ["b"]), (3, ["aux_1"])],
    filterAux := true, bb := [],
    bba := fun v => if v = 1 then [1] else if v = 2 then [2, 3, 1] else [3, 1] }

/-- A generate_graphs world in which every external operation succeeds and
the formula is envMutex. -/
def wOk : GGWorld :=
  { loadOk := fun _ => true, detectorOk := true, maxVar := 2,
    clauseCount := Except.ok 1, featuresOk := true, comments := [],
    bb := [], bba := fun v => if v = 1 then [1, -2] else [2, -1], hw := 8,
    threadLoadOk := fun _ => true, threadDetectorOk := fun _ => true,
    workerErr := fun _ => none, dirExists := fun _ => true, mkdirOk := true,
    fileOpenOk := fun _ => true }

/-- A world in which the input loads but detector creation fails — an
analysis failure on an already-loaded input. -/
def wDetectorFail : GGWorld :=
  { wOk with detectorOk := false }

/-- A world in which only the file "model.cnf" itself is loadable. -/
def wOnlyCnf : GGWorld :=
  { wOk with loadOk := fun q => q == "model.cnf" }

/-- A CLI world whose generate_graphs stage fails after a successful load. -/
def cliWorldAnalysisFail : CLIWorld :=
  { fileExists := fun _ => true, mkdirOk := true, uvlOk := true,
    gg := wDetectorFail }

/-- A neutral prior API state. -/
def dgs0 : DGState :=
  { num_variables := 0, num_clauses := 0, global_backbone := [],
    error_message := "", filter_auxiliary := false }

/-- A prior API state left over from a successful earlier analysis. -/
def dgsPrev : DGState :=
  { num_variables := 42, num_clauses := 99, global_backbone := [7, -8],
    error_message := "", filter_auxiliary := false }

/-! ## Theorems -/

/-! ### Helper lemmas (shared) -/

theorem getD_replicate_false (k v : Nat) :
    (List.replicate k false).getD v false = false := by
  induction k generalizing v with
  | zero => rfl
  | succ k ih =>
    cases v with
    | zero => rfl
    | succ v => simp [List.replicate_succ, List.getD, ih v]

theorem isAux_of_not_filter (e : ExtractEnv) (h : e.filterAux = false) (v : Nat) :
    isAux e v = false := by
  simp [isAux, auxVec, h, isAuxIn, getD_replicate_false]

/-! ### Claim C4 -/

/-- Counterexample to C4: variable 1 is in the global backbone
(B*[1] = 1 ≠ 0) yet it is in the processed (queried) list, because
generate_graphs_impl builds vars_to_process before computing the backbone
and never removes backbone variables. -/
theorem claim_C4_counterexample :
    bbAt envCoreVar 1 ≠ 0 ∧ 1 ∈ varsToProcess envCoreVar := by
  decide

/-- C4 (amended): the set of queried variables equals {1..V} minus the
auxiliary variables (and equals all of {1..V} when auxiliary filtering is
disabled); variables of the global backbone are not excluded from it. -/
theorem claim_C4_amended (e : ExtractEnv) :
    varsToProcess e = (List.range' 1 e.n).filter (fun v => !isAux e v) := by
  cases hf : e.filterAux with
  | true => simp [varsToProcess, hf]
  | false =>
    rw [varsToProcess, hf]
    refine Eq.trans ?_ (List.filter_eq_self.mpr ?_).symm
    · simp
    · intro v _
      simp [isAux_of_not_filter e hf]

/-! ### Claim C7 -/

/-- Counterexample to C7: for the two-word name "foo bar" of variable 1,
the core/dead line is `1 "foo"1 "bar"` — neither the `index "name"` format
with the full tail nor the tokenization `1 "foo" "bar"` used by the .net
vertex tables. -/
theorem claim_C7_counterexample :
    perWordLineStr 1 ["foo", "bar"] ≠ specPairLineStr 1 ["foo", "bar"] ∧
      perWordLineStr 1 ["foo", "bar"] ≠ featLineStr 1 ["foo", "bar"] := by
  decide

/-- C7 (amended): a core/dead line repeats the variable index before each
whitespace-separated word of the name, each word quoted separately; this
agrees with the `index "name"` full-tail format and with the .net vertex
tokenization exactly when the name is a single word. -/
theorem claim_C7_amended (v : Nat) (w : String) :
    perWordLineStr v [w] = specPairLineStr v [w] ∧
      perWordLineStr v [w] = featLineStr v [w] := by
  constructor <;>
  · apply String.ext
    simp [perWordLineStr, specPairLineStr, featLineStr, joinedName,
      String.join, String.data_append]

/-! ### Partition machinery (claims C5 and C6) -/

/-- Total number of indices covered by the ranges a run of the
partitioning loop creates, starting at thread id t with k threads left. -/
def sumCount (vpt rem : Nat) : Nat → Nat → Nat
  | _, 0 => 0
  | t, k + 1 => (vpt + if t < rem then 1 else 0) + sumCount vpt rem (t + 1) k

theorem rangesGo_length (vpt rem : Nat) :
    ∀ (k cur t : Nat), (rangesGo vpt rem cur t k).length = k := by
  intro k
  induction k with
  | zero => intro cur t; rfl
  | succ k ih => intro cur t; simp [rangesGo, ih]

theorem rangesGo_getD_snd (vpt rem : Nat) :
    ∀ (k cur t j : Nat), j < k →
      ((rangesGo vpt rem cur t k).getD j (0, 0)).2 =
        vpt + if t + j < rem then 1 else 0 := by
  intro k
  induction k with
  | zero => intro cur t j h; omega
  | succ k ih =>
    intro cur t j h
    cases j with
    | zero => simp [rangesGo]
    | succ j =>
      have hih := ih (cur + (vpt + if t < rem then 1 else 0)) (t + 1) j (by omega)
      simp only [rangesGo, List.getD_cons_succ]
      rw [hih, show t + 1 + j = t + (j + 1) from by omega]

theorem rangesGo_flatMap (vpt rem : Nat) :
    ∀ (k cur t : Nat),
      (rangesGo vpt rem cur t k).flatMap (fun p => List.range' p.1 p.2) =
        List.range' cur (sumCount vpt rem t k) := by
  intro k
  induction k with
  | zero => intro cur t; simp [rangesGo, sumCount]
  | succ k ih =>
    intro cur t
    simp only [rangesGo, sumCount, List.flatMap_cons, ih]
    refine (List.range'_append_1 cur _ _).trans ?_
    congr 1
    exact Nat.add_comm _ _

theorem sumCount_add_min (vpt rem : Nat) :
    ∀ (k t : Nat), sumCount vpt rem t k + min rem t = k * vpt + min rem (t + k) := by
  intro k
  induction k with
  | zero => intro t; simp [sumCount]
  | succ k ih =>
    intro t
    have h := ih (t + 1)
    simp only [sumCount]
    rw [Nat.succ_mul]
    rcases Nat.lt_or_ge t rem with hlt | hge
    · rw [if_pos hlt]; omega
    · rw [if_neg (by omega)]; omega

theorem makeRanges_cover (total eff : Nat) (h : eff = 0 → total = 0) :
    (makeRanges total eff).flatMap (fun p => List.range' p.1 p.2) =
      List.range' 0 total := by
  unfold makeRanges
  rw [rangesGo_flatMap]
  congr 1
  have hsum := sumCount_add_min (total / eff) (total % eff) eff 0
  rcases Nat.eq_zero_or_pos eff with heff | heff
  · subst heff
    simp [sumCount, h rfl]
  · have hmod : total % eff < eff := Nat.mod_lt _ heff
    have hdm : eff * (total / eff) + total % eff = total := Nat.div_add_mod total eff
    simp only [Nat.zero_add, Nat.min_zero, Nat.add_zero] at hsum
    have : min (total % eff) eff = total % eff := by omega
    rw [this] at hsum
    have : eff * (total / eff) = total / eff * eff := Nat.mul_comm _ _
    omega

theorem map_getD_range'_shift (l : List Nat) :
    ∀ s : Nat, (List.range' s l.length).map (fun i => l.getD (i - s) 0) = l := by
  induction l with
  | nil => intro s; simp
  | cons x t ih =>
    intro s
    have hlen : (x :: t).length = t.length + 1 := rfl
    rw [hlen, List.range'_succ, List.map_cons]
    congr 1
    · simp
    · rw [List.map_congr_left (g := fun i => t.getD (i - (s + 1)) 0), ih (s + 1)]
      intro i hi
      rw [List.mem_range'_1] at hi
      have : i - s = (i - (s + 1)) + 1 := by omega
      rw [this, List.getD_cons_succ]

theorem map_getD_range'_zero (l : List Nat) :
    (List.range' 0 l.length).map (fun i => l.getD i 0) = l := by
  conv_rhs => rw [← map_getD_range'_shift l 0]
  apply List.map_congr_left
  intro i _
  simp

theorem effThreads_cover (e : ExtractEnv) (T : Nat) (hT : 1 ≤ T) :
    (theRanges e T).flatMap
        (fun p => (List.range' p.1 p.2).map (fun idx => (varsToProcess e).getD idx 0)) =
      varsToProcess e := by
  unfold theRanges
  rw [← List.map_flatMap, makeRanges_cover, map_getD_range'_zero]
  intro h0
  simp only [effThreads] at h0
  omega

/-- Either edge list of the multi-threaded path equals the corresponding
single-threaded list: the per-range flatMaps compose to the flatMap over
all of vars_to_process. -/
theorem multi_eq_single (e : ExtractEnv) (T : Nat) (hT : 1 ≤ T)
    (f : Nat → List (Nat × Nat)) :
    (theRanges e T).flatMap
        (fun p => (List.range' p.1 p.2).flatMap
          (fun idx => f ((varsToProcess e).getD idx 0))) =
      (varsToProcess e).flatMap f := by
  have hcov := effThreads_cover e T hT
  calc (theRanges e T).flatMap
        (fun p => (List.range' p.1 p.2).flatMap
          (fun idx => f ((varsToProcess e).getD idx 0)))
      = (theRanges e T).flatMap
          (fun p => ((List.range' p.1 p.2).map
            (fun idx => (varsToProcess e).getD idx 0)).flatMap f) := by
        simp only [List.flatMap_map]
    _ = ((theRanges e T).flatMap
          (fun p => (List.range' p.1 p.2).map
            (fun idx => (varsToProcess e).getD idx 0))).flatMap f := by
        rw [List.flatMap_assoc]
    _ = (varsToProcess e).flatMap f := by rw [hcov]

/-! ### Claim C6 -/

/-- C6: the driver caps the worker count at T_eff = min(T, |C|)
(effThreads is by definition this minimum over vars_to_process), creates
exactly T_eff ranges, gives range t exactly ⌊|C|/T_eff⌋ elements plus one
more iff t < |C| mod T_eff, and the ranges laid end to end recover exactly
the candidate list C — they are disjoint and cover all of it. -/
theorem claim_C6_partition (e : ExtractEnv) (T : Nat) (hT : 1 ≤ T) :
    (theRanges e T).length = effThreads e T ∧
    (∀ j, j < effThreads e T →
      ((theRanges e T).getD j (0, 0)).2 =
        (varsToProcess e).length / effThreads e T +
          (if j < (varsToProcess e).length % effThreads e T then 1 else 0)) ∧
    (theRanges e T).flatMap
        (fun p => (List.range' p.1 p.2).map (fun idx => (varsToProcess e).getD idx 0)) =
      varsToProcess e := by
  refine ⟨?_, ?_, effThreads_cover e T hT⟩
  · exact rangesGo_length _ _ _ _ _
  · intro j hj
    have := rangesGo_getD_snd ((varsToProcess e).length / effThreads e T)
      ((varsToProcess e).length % effThreads e T) (effThreads e T) 0 0 j hj
    simpa using this

/-- Witness for C6 at the concrete two-variable environment with T = 2. -/
theorem claim_C6_partition_witness :
    (theRanges envMutex 2).length = effThreads envMutex 2 ∧
    (∀ j, j < effThreads envMutex 2 →
      ((theRanges envMutex 2).getD j (0, 0)).2 =
        (varsToProcess envMutex).length / effThreads envMutex 2 +
          (if j < (varsToProcess envMutex).length % effThreads envMutex 2 then 1 else 0)) ∧
    (theRanges envMutex 2).flatMap
        (fun p => (List.range' p.1 p.2).map
          (fun idx => (varsToProcess envMutex).getD idx 0)) =
      varsToProcess envMutex :=
  claim_C6_partition envMutex 2 (by decide)

/-! ### Claim C5 -/

/-- C5: the requires and excludes edge lists produced by the
multi-threaded worker path (any T > 1) are exactly the lists the
single-threaded path produces.  Each per-thread solver instance is loaded
with the same formula, and the solver layer is deterministic (§4.1), so
all instances realise the same backbone oracle. -/
theorem claim_C5_thread_invariance (e : ExtractEnv) (T : Nat) (hT : 1 < T) :
    multiRequires e T = singleRequires e ∧ multiExcludes e T = singleExcludes e := by
  constructor
  · exact multi_eq_single e T (by omega) (requiresFor e)
  · exact multi_eq_single e T (by omega) (excludesFor e)

/-- Witness for C5 at the mutual-exclusion environment with T = 2. -/
theorem claim_C5_thread_invariance_witness :
    multiRequires envMutex 2 = singleRequires envMutex ∧
      multiExcludes envMutex 2 = singleExcludes envMutex :=
  claim_C5_thread_invariance envMutex 2 (by decide)

/-! ### lineAt characterisation (claims C2 and C3) -/

theorem lineAt_acc_cases (i : Nat) :
    ∀ (L : List Int) (a : Int),
      L.foldl (fun acc l => if l.natAbs = i then l else acc) a = a ∨
      (L.foldl (fun acc l => if l.natAbs = i then l else acc) a ∈ L ∧
        (L.foldl (fun acc l => if l.natAbs = i then l else acc) a).natAbs = i) := by
  intro L
  induction L with
  | nil => intro a; left; rfl
  | cons x t ih =>
    intro a
    rcases ih (if x.natAbs = i then x else a) with h | ⟨hmem, habs⟩
    · simp only [List.foldl_cons, h]
      by_cases hx : x.natAbs = i
      · right
        exact ⟨by simp [hx, List.mem_cons], by simp [hx]⟩
      · left; simp [hx]
    · right
      exact ⟨List.mem_cons_of_mem _ hmem, habs⟩

theorem lineAt_foldl_const (i : Nat) (c : Int) :
    ∀ L : List Int, (∀ l ∈ L, l.natAbs = i → l = c) →
      L.foldl (fun acc l => if l.natAbs = i then l else acc) c = c := by
  intro L
  induction L with
  | nil => intro _; rfl
  | cons x t ih =>
    intro h
    have hx : (if x.natAbs = i then x else c) = c := by
      by_cases hxi : x.natAbs = i
      · simp [hxi, h x (List.mem_cons_self x t) hxi]
      · simp [hxi]
    simp only [List.foldl_cons, hx]
    exact ih (fun l hl => h l (List.mem_cons_of_mem _ hl))

theorem lineAt_foldl_of_mem (i : Nat) :
    ∀ (L : List Int) (a : Int),
      (∀ l₁ ∈ L, ∀ l₂ ∈ L, l₁.natAbs = l₂.natAbs → l₁ = l₂) →
      (i : Int) ∈ L →
      L.foldl (fun acc l => if l.natAbs = i then l else acc) a = (i : Int) := by
  intro L
  induction L with
  | nil => intro a _ hmem; cases hmem
  | cons x t ih =>
    intro a hpol hmem
    by_cases hxi : x.natAbs = i
    · have hx : x = (i : Int) := by
        apply hpol x (List.mem_cons_self x t) (i : Int) hmem
        simp [hxi]
      have hacc : (if x.natAbs = i then x else a) = (i : Int) := by
        rw [if_pos hxi, hx]
      simp only [List.foldl_cons, hacc]
      apply lineAt_foldl_const
      intro l hl hli
      exact hpol l (List.mem_cons_of_mem _ hl) (i : Int) hmem (by simp [hli])
    · have hxne : x ≠ (i : Int) := by
        intro hcon
        apply hxi
        rw [hcon]
        simp
      have hmemt : (i : Int) ∈ t := by
        rcases List.mem_cons.mp hmem with h | h
        · exact absurd h.symm hxne
        · exact h
      simp only [List.foldl_cons, if_neg hxi]
      exact ih a
        (fun l₁ h₁ l₂ h₂ =>
          hpol l₁ (List.mem_cons_of_mem _ h₁) l₂ (List.mem_cons_of_mem _ h₂))
        hmemt

/-- For a literal vector with at most one polarity per variable, the
indexed array shows +i exactly when the vector holds +i. -/
theorem lineAt_eq_self_iff_mem (L : List Int) (i : Nat) (hi : 1 ≤ i)
    (hpol : ∀ l₁ ∈ L, ∀ l₂ ∈ L, l₁.natAbs = l₂.natAbs → l₁ = l₂) :
    lineAt L i = (i : Int) ↔ (i : Int) ∈ L := by
  constructor
  · intro h
    rcases lineAt_acc_cases i L 0 with h0 | ⟨hmem, _⟩
    · rw [lineAt] at h
      rw [h0] at h
      omega
    · rw [lineAt] at h
      rw [h] at hmem
      exact hmem
  · intro hmem
    exact lineAt_foldl_of_mem i L 0 hpol hmem

/-- Processed variables lie in 1..n. -/
theorem mem_vars_range (e : ExtractEnv) (v : Nat) (hv : v ∈ varsToProcess e) :
    v ∈ List.range' 1 e.n := by
  unfold varsToProcess at hv
  split at hv
  · exact (List.mem_filter.mp hv).1
  · exact hv

/-! ### Claim C2 -/

/-- C2: for a processed variable v and a non-auxiliary variable w ≠ v in
1..V, the requires edge (v, w) is emitted iff the engine's backbone of F
under the assumption v (a vector with at most one polarity per variable)
contains the positive literal w and the global backbone leaves w free
(B*[w] = 0). -/
theorem claim_C2_requires_iff (e : ExtractEnv) (v w : Nat)
    (hpol : ∀ l₁ ∈ e.bba v, ∀ l₂ ∈ e.bba v, l₁.natAbs = l₂.natAbs → l₁ = l₂)
    (hv : v ∈ varsToProcess e) (hw1 : 1 ≤ w) (hwn : w ≤ e.n)
    (hne : w ≠ v) (haux : isAux e w = false) :
    (v, w) ∈ singleRequires e ↔ ((w : Int) ∈ e.bba v ∧ bbAt e w = 0) := by
  have hchar := lineAt_eq_self_iff_mem (e.bba v) w hw1 hpol
  constructor
  · intro h
    simp only [singleRequires, List.mem_flatMap, requiresFor, List.mem_map,
      List.mem_filter] at h
    obtain ⟨v', _, i, ⟨⟨_, hcond⟩, heq⟩⟩ := h
    obtain ⟨hv', hi⟩ := Prod.mk.injEq v' i v w ▸ heq
    subst hv'
    subst hi
    simp only [Bool.and_eq_true, bne_iff_ne, beq_iff_eq, Bool.not_eq_true'] at hcond
    exact ⟨hchar.mp hcond.1.1.2, hcond.1.2⟩
  · rintro ⟨hmem, hbb⟩
    simp only [singleRequires, List.mem_flatMap, requiresFor, List.mem_map,
      List.mem_filter]
    refine ⟨v, hv, w, ⟨⟨?_, ?_⟩, rfl⟩⟩
    · rw [List.mem_range'_1]
      omega
    · simp only [Bool.and_eq_true, bne_iff_ne, beq_iff_eq, Bool.not_eq_true']
      exact ⟨⟨⟨hne, hchar.mpr hmem⟩, hbb⟩, haux⟩

/-- Witness for C2: in envImplies, assuming 1 forces 2, and the edge
(1, 2) is emitted. -/
theorem claim_C2_requires_iff_witness :
    (1, 2) ∈ singleRequires envImplies ↔
      ((2 : Int) ∈ envImplies.bba 1 ∧ bbAt envImplies 2 = 0) :=
  claim_C2_requires_iff envImplies 1 2 (by decide) (by decide) (by decide)
    (by decide) (by decide) (by decide)

/-! ### Claim C3 -/

/-- C3: in the excludes output each pair is emitted with the smaller
endpoint first (strictly smaller: the engine returns +v, never −v, under
the assumption v, which is the hEngine hypothesis), no ordered pair is
emitted twice, and no pair appears in both orientations: every unordered
excludes pair appears exactly once, emitted by its smaller endpoint. -/
theorem claim_C3_excludes_once (e : ExtractEnv)
    (hEngine : ∀ v ∈ List.range' 1 e.n, lineAt (e.bba v) v ≠ -(v : Int)) :
    (singleExcludes e).Nodup ∧
    (∀ p ∈ singleExcludes e, p.1 < p.2) ∧
    (∀ v w, (v, w) ∈ singleExcludes e → (w, v) ∈ singleExcludes e → False) := by
  have hlt : ∀ p ∈ singleExcludes e, p.1 < p.2 := by
    intro p hp
    simp only [singleExcludes, List.mem_flatMap, excludesFor, List.mem_map,
      List.mem_filter] at hp
    obtain ⟨v', hv', i, ⟨⟨hrange, hcond⟩, heq⟩⟩ := hp
    subst heq
    simp only
    rw [List.mem_range'_1] at hrange
    simp only [Bool.and_eq_true, beq_iff_eq] at hcond
    rcases Nat.lt_or_ge v' i with h | h
    · exact h
    · exfalso
      have hiv : i = v' := by omega
      subst hiv
      exact hEngine i (mem_vars_range e i hv') hcond.1.1.1
  refine ⟨?_, hlt, ?_⟩
  · rw [singleExcludes, List.nodup_flatMap]
    constructor
    · intro v _
      apply List.Nodup.map
      · intro a b hab
        simpa using hab
      · apply List.Nodup.filter
        exact List.nodup_range' _ _
    · have hnd : (varsToProcess e).Nodup := by
        unfold varsToProcess
        split
        · exact (List.nodup_range' 1 e.n).filter _
        · exact List.nodup_range' 1 e.n
      apply List.Pairwise.imp ?_ hnd
      intro a b hab
      intro p hpa hpb
      simp only [excludesFor, List.mem_map, List.mem_filter] at hpa hpb
      obtain ⟨i, _, heqa⟩ := hpa
      obtain ⟨j, _, heqb⟩ := hpb
      apply hab
      have h1 : p.1 = a := by rw [← heqa]
      have h2 : p.1 = b := by rw [← heqb]
      rw [← h1, h2]
  · intro v w h1 h2
    have := hlt (v, w) h1
    have := hlt (w, v) h2
    simp only at *
    omega

/-- Witness for C3 at the mutual-exclusion environment. -/
theorem claim_C3_excludes_once_witness :
    (singleExcludes envMutex).Nodup ∧
    (∀ p ∈ singleExcludes envMutex, p.1 < p.2) ∧
    (∀ v w, (v, w) ∈ singleExcludes envMutex →
      (w, v) ∈ singleExcludes envMutex → False) :=
  claim_C3_excludes_once envMutex (by decide)

/-! ### Auxiliary-flag characterisation (claim C1) -/

theorem isAuxIn_setAux (l : List Bool) (u v : Nat) :
    isAuxIn (setAux l u) v = (v == u || isAuxIn l v) := by
  unfold setAux isAuxIn
  by_cases hvu : v = u
  · subst hvu
    have hlen : v < (if l.length ≤ v then l ++ List.replicate (v + 1 - l.length) false
        else l).length := by
      split <;> (try simp only [List.length_append, List.length_replicate]) <;> omega
    simp [List.getD_eq_getElem?_getD, List.getElem?_set, hlen]
  · rw [List.getD_eq_getElem?_getD, List.getD_eq_getElem?_getD,
      List.getElem?_set_ne (fun h => hvu h.symm)]
    have hne : (v == u) = false := by simp [hvu]
    rw [hne, Bool.false_or]
    split
    · rw [List.getElem?_append]
      split
      · rfl
      · rename_i hvl
        rw [List.getElem?_replicate, List.getElem?_eq_none (Nat.le_of_not_lt hvl)]
        split <;> rfl
    · rfl

theorem isAuxIn_computeAuxVars (n : Nat) (comments : List Comment) (v : Nat) :
    isAuxIn (computeAuxVars n comments) v = isAuxNamed comments v := by
  suffices h : ∀ (cs : List Comment) (init : List Bool),
      isAuxIn (cs.foldl
        (fun l c =>
          if !c.2.isEmpty && isAuxName (joinedName c.2) then setAux l c.1 else l)
        init) v = (isAuxNamed cs v || isAuxIn init v) by
    rw [computeAuxVars, h, isAuxIn, getD_replicate_false]
    simp
  intro cs
  induction cs with
  | nil => intro init; simp [isAuxNamed]
  | cons c cs ih =>
    intro init
    rw [List.foldl_cons, ih]
    by_cases hcond : (!c.2.isEmpty && isAuxName (joinedName c.2)) = true
    · rw [if_pos hcond, isAuxIn_setAux]
      by_cases hvc : v = c.1
      · subst hvc
        simp [isAuxNamed, List.any_cons, hcond, Bool.and_assoc]
      · have h1 : (v == c.1) = false := beq_eq_false_iff_ne.mpr hvc
        have h2 : (c.1 == v) = false := beq_eq_false_iff_ne.mpr (fun h => hvc h.symm)
        simp [isAuxNamed, List.any_cons, h1, h2, Bool.and_assoc, Bool.or_assoc]
    · rw [if_neg hcond]
      have hc2 : (!c.2.isEmpty && isAuxName (joinedName c.2)) = false :=
        Bool.eq_false_iff.mpr hcond
      simp [isAuxNamed, List.any_cons, Bool.and_assoc, hc2]

theorem isAux_eq_isAuxNamed (e : ExtractEnv) (hf : e.filterAux = true) (v : Nat) :
    isAux e v = isAuxNamed e.comments v := by
  simp [isAux, auxVec, hf, isAuxIn_computeAuxVars]

theorem vars_not_aux (e : ExtractEnv) (hf : e.filterAux = true) (v : Nat)
    (hv : v ∈ varsToProcess e) : isAux e v = false := by
  rw [varsToProcess, hf] at hv
  simp only [if_pos rfl] at hv
  have := (List.mem_filter.mp hv).2
  simpa using this

theorem singleRequires_not_aux (e : ExtractEnv) (p : Nat × Nat)
    (hp : p ∈ singleRequires e) :
    p.1 ∈ varsToProcess e ∧ isAux e p.2 = false := by
  simp only [singleRequires, List.mem_flatMap, requiresFor, List.mem_map,
    List.mem_filter] at hp
  obtain ⟨v', hv', i, ⟨⟨_, hcond⟩, heq⟩⟩ := hp
  subst heq
  simp only [Bool.and_eq_true, Bool.not_eq_true'] at hcond
  exact ⟨hv', hcond.2⟩

theorem singleExcludes_not_aux (e : ExtractEnv) (p : Nat × Nat)
    (hp : p ∈ singleExcludes e) :
    p.1 ∈ varsToProcess e ∧ isAux e p.2 = false := by
  simp only [singleExcludes, List.mem_flatMap, excludesFor, List.mem_map,
    List.mem_filter] at hp
  obtain ⟨v', hv', i, ⟨⟨_, hcond⟩, heq⟩⟩ := hp
  subst heq
  simp only [Bool.and_eq_true, Bool.not_eq_true'] at hcond
  exact ⟨hv', hcond.2⟩

/-! ### Claim C1 -/

/-- Counterexample to C1: with auxiliary filtering disabled (the default;
the CLI enables it only in Tseitin mode), a variable whose name comment
starts with "aux_" is mentioned by the output files. -/
theorem claim_C1_counterexample :
    isAuxNamed envAuxNoFilter.comments 1 = true ∧ 1 ∈ allMentioned envAuxNoFilter := by
  decide

/-- C1 (amended): in a run with auxiliary filtering enabled
(set_filter_auxiliary(true), as the CLI does in Tseitin mode), no output
file mentions an auxiliary variable: not the vertex tables, not the core
or dead lists, and no endpoint of an emitted edge. -/
theorem claim_C1_aux_excluded (e : ExtractEnv) (hf : e.filterAux = true)
    (v : Nat) (hv : isAuxNamed e.comments v = true) :
    v ∉ allMentioned e := by
  intro hmem
  have haux : isAux e v = true := by rw [isAux_eq_isAuxNamed e hf]; exact hv
  simp only [allMentioned, List.mem_append] at hmem
  rcases hmem with ((((h | h) | h) | h) | h)
  · simp only [featVars, List.mem_map, List.mem_filter] at h
    obtain ⟨c, ⟨_, hc⟩, hc1⟩ := h
    rw [hc1] at hc
    simp [haux] at hc
  · simp only [coreVars, List.mem_map, List.mem_filter, Bool.and_eq_true] at h
    obtain ⟨c, ⟨_, hc⟩, hc1⟩ := h
    rw [hc1] at hc
    simp [haux] at hc
  · simp only [deadVars, List.mem_map, List.mem_filter, Bool.and_eq_true] at h
    obtain ⟨c, ⟨_, hc⟩, hc1⟩ := h
    rw [hc1] at hc
    simp [haux] at hc
  · simp only [edgeVars, List.mem_flatMap] at h
    obtain ⟨p, hp, hvp⟩ := h
    obtain ⟨hsrc, htgt⟩ := singleRequires_not_aux e p hp
    simp only [List.mem_cons, List.mem_singleton] at hvp
    rcases hvp with h | h | h
    · subst h; rw [vars_not_aux e hf _ hsrc] at haux; cases haux
    · subst h; rw [htgt] at haux; cases haux
    · cases h
  · simp only [edgeVars, List.mem_flatMap] at h
    obtain ⟨p, hp, hvp⟩ := h
    obtain ⟨hsrc, htgt⟩ := singleExcludes_not_aux e p hp
    simp only [List.mem_cons, List.mem_singleton] at hvp
    rcases hvp with h | h | h
    · subst h; rw [vars_not_aux e hf _ hsrc] at haux; cases haux
    · subst h; rw [htgt] at haux; cases haux
    · cases h

/-- Witness for C1 (amended) at the filtering environment: variable 3 is
auxiliary and appears in no output. -/
theorem claim_C1_aux_excluded_witness :
    envAuxFilter.filterAux = true ∧ isAuxNamed envAuxFilter.comments 3 = true ∧
      3 ∉ allMentioned envAuxFilter :=
  ⟨rfl, by decide, claim_C1_aux_excluded envAuxFilter rfl 3 (by decide)⟩

/-! ### Claim C8 -/

/-- Counterexample to C8: a run in which the input loads successfully but
the analysis fails afterwards (detector creation fails inside
generate_graphs) exits with code 1, not 2. -/
theorem claim_C8_counterexample :
    wDetectorFail.loadOk (withDimacsExt "model.dimacs") = true ∧
    (genGraphs wDetectorFail "model.dimacs" "." "one" 1 dgs0).1 = false ∧
    mainExit cliWorldAnalysisFail ["model.dimacs"] = 1 := by
  decide

/-- C8 (amended): the strong4vm CLI exits with code 0 on success (and on
-h), and with code 1 on every error — usage errors, input errors, and
analysis errors alike.  No run exits with code 2. -/
theorem claim_C8_exit_codes (w : CLIWorld) (args : List String) :
    mainExit w args = 0 ∨ mainExit w args = 1 := by
  suffices h : mainExit w args ≤ 1 by omega
  unfold mainExit
  split
  · omega
  · cases parseLoop args "" "" 1 false false with
    | help => exact Nat.zero_le 1
    | err => exact Nat.le_refl 1
    | ok inp od t k e =>
      simp only [mainAfterParse]
      split_ifs <;> omega

/-! ### Claim C9 -/

theorem not_endsWith_dimacs_of_cnf (s : String) (h : strEndsWith s ".cnf" = true) :
    strEndsWith s ".dimacs" = false := by
  unfold strEndsWith at *
  rw [List.isSuffixOf_iff_suffix] at h
  by_contra hcon
  rw [Bool.not_eq_false, List.isSuffixOf_iff_suffix] at hcon
  have hns : ¬ (".cnf".data <:+ ".dimacs".data) := by
    rw [← List.isSuffixOf_iff_suffix]
    decide
  have hns' : ¬ (".dimacs".data <:+ ".cnf".data) := by
    rw [← List.isSuffixOf_iff_suffix]
    decide
  rcases List.suffix_or_suffix_of_suffix h hcon with hs | hs
  · exact hns hs
  · exact hns' hs

/-- C9: generate_graphs appends ".dimacs" to every input path not already
ending in ".dimacs".  For an input whose name ends in ".cnf" — an
extension detect_file_type accepts as DIMACS — the loader is handed
"<name>.cnf.dimacs", a different path than the given file; in a file
system in which only the given file is loadable the analysis therefore
fails with the load error, well-formed though the .cnf file is. -/
theorem claim_C9_cnf_misload (s : String) (hext : strEndsWith s ".cnf" = true)
    (_hcli : detectFileType s = FileType.DIMACS)
    (w : GGWorld) (hw : ∀ q, w.loadOk q = (q == s))
    (ofolder detector : String) (T : Int) (st : DGState) :
    withDimacsExt s = s ++ ".dimacs" ∧
    s ++ ".dimacs" ≠ s ∧
    (genGraphs w s ofolder detector T st).1 = false ∧
    (genGraphs w s ofolder detector T st).2.error_message =
      loadFailMsg (s ++ ".dimacs") := by
  have h1 : withDimacsExt s = s ++ ".dimacs" := by
    rw [withDimacsExt, not_endsWith_dimacs_of_cnf s hext]
    simp
  have h2 : s ++ ".dimacs" ≠ s := by
    intro hcon
    have hlen := congrArg String.length hcon
    rw [String.length_append] at hlen
    have : (".dimacs" : String).length = 7 := by decide
    omega
  have h3 : w.loadOk (s ++ ".dimacs") = false := by
    rw [hw]
    exact beq_eq_false_iff_ne.mpr h2
  refine ⟨h1, h2, ?_, ?_⟩ <;> simp [genGraphs, h1, h3]

/-- Witness for C9 at the concrete input "model.cnf". -/
theorem claim_C9_cnf_misload_witness :
    withDimacsExt "model.cnf" = "model.cnf" ++ ".dimacs" ∧
    "model.cnf" ++ ".dimacs" ≠ "model.cnf" ∧
    (genGraphs wOnlyCnf "model.cnf" "" "one" 1 dgs0).1 = false ∧
    (genGraphs wOnlyCnf "model.cnf" "" "one" 1 dgs0).2.error_message =
      loadFailMsg ("model.cnf" ++ ".dimacs") :=
  claim_C9_cnf_misload "model.cnf" (by decide) (by decide) wOnlyCnf
    (fun _ => rfl) "" "one" 1 dgs0

/-! ### Claim C10 -/

/-- C10: generate_graphs resets num_variables, num_clauses,
global_backbone and error_message before doing anything else, so its
outcome — including every field the getters get_num_variables,
get_num_clauses, get_global_backbone and get_error_message read after a
failed call — is identical to a call made from a pristine state: nothing
of a previous successful call survives. -/
theorem claim_C10_state_reset (w : GGWorld) (f o d : String) (T : Int) (s : DGState) :
    genGraphs w f o d T s =
      genGraphs w f o d T
        { num_variables := 0, num_clauses := 0, global_backbone := [],
          error_message := "", filter_auxiliary := s.filter_auxiliary } := by
  rfl

end Strong4VM

